import Mathlib

/-!
Shallow embedding of brian2/devices/cpp_standalone/device.py (the C++
standalone device of brian2) together with proofs about its recording
and build pipeline.

Conventions of the embedding:
- Python lists become Lean lists; appending to a list is modelled by
  list concatenation with a one-element list.
- Mutating methods on an object become functions from the object to the
  updated object (explicit state passing).
- Methods that raise become functions into Except.
- Scalar values stored into arrays are modelled as Int; durations and
  the clock step are modelled as rationals.
- Functions of the repository that live outside the provided source file
  (the template renderer, word_substitute, c_data_type, the replay of a
  deferred log) are modelled from the spec; each such definition carries
  a doc comment saying so.
-/

namespace CppStandalone

/-- Element types as they reach the device (numpy dtypes in the source).
The source distinguishes numpy.bool, an explicit dtype, and the preference
default core.default_scalar_dtype. -/
inductive Dtype where
  | float64
  | int32
  | boolDtype
deriving DecidableEq, Repr

/-- Modelled from the spec: the external element-type to source-type name
mapping (c_data_type from brian2.codegen.languages.cpp_lang, which is not
part of the provided source file); consumed collaborator interface (d) of
the spec. -/
def c_data_type : Dtype → String
  | .float64 => "double"
  | .int32 => "int32_t"
  | .boolDtype => "bool"

/-- Modelled from the spec: the preference brian_prefs with key
core.default_scalar_dtype (the preferences module is not part of the
provided source file); the device uses it when no dtype is given. -/
def default_scalar_dtype : Dtype := .float64

/-- Index selector of a recorded write.  In set_value of
StandaloneArrayVariable a missing index (None) is replaced by slice(None),
the full slice, before the entry is appended. -/
inductive IndexSel where
  | fullSlice
  | atIdx (i : Nat)
deriving DecidableEq, Repr

/-- One entry of the ordered assignments log of a descriptor: set_value
appends an (index, value) pair, resize of the dynamic subclass appends a
resize-tagged entry into the same list. -/
inductive AssignEntry where
  | write (idx : IndexSel) (value : Int)
  | resizeEntry (new_size : Nat)
deriving DecidableEq, Repr

/-- Error taxonomy of the spec.  recordingMisuse is the spec name
RecordingMisuseError for the NotImplementedError that the source raises on
an eager read of a write-deferred descriptor. -/
inductive StandaloneError where
  | recordingMisuse
  | unsupportedFeature (clsName : String)
deriving DecidableEq, Repr

/-- StandaloneArrayVariable of the source: a write-deferred descriptor.
Its constructor stores assignments = [] and the size, plus name, dtype,
group_name, constant and is_bool exactly as passed.  The dynamic subclass
StandaloneDynamicArrayVariable adds no field, only the resize method, so
both are embedded by this one structure. -/
structure StandaloneArrayVariable where
  name : String
  size : Nat
  dtype : Dtype
  group_name : String
  constant : Bool
  is_bool : Bool
  assignments : List AssignEntry
deriving DecidableEq, Repr

namespace StandaloneArrayVariable

/-- set_value of StandaloneArrayVariable: if index is None it becomes
slice(None); then the (index, value) pair is appended to assignments. -/
def set_value (v : StandaloneArrayVariable) (value : Int)
    (idx : Option IndexSel) : StandaloneArrayVariable :=
  let i := idx.getD .fullSlice
  { v with assignments := v.assignments ++ [AssignEntry.write i value] }

/-- resize of StandaloneDynamicArrayVariable: appends a resize-tagged
entry to the same assignments list as the writes. -/
def resize (v : StandaloneArrayVariable) (new_size : Nat) :
    StandaloneArrayVariable :=
  { v with assignments := v.assignments ++ [AssignEntry.resizeEntry new_size] }

/-- get_value of StandaloneArrayVariable raises NotImplementedError
unconditionally; the spec taxonomy names this failure
RecordingMisuseError. -/
def get_value (_v : StandaloneArrayVariable) :
    Except StandaloneError (List Int) :=
  .error .recordingMisuse

/-- get_len of StandaloneArrayVariable returns the stored size. -/
def get_len (v : StandaloneArrayVariable) : Nat := v.size

end StandaloneArrayVariable

/-- StandaloneVariableView: the addressable view on a descriptor; its
getitem raises NotImplementedError unconditionally, so indexing a
descriptor eagerly always fails (spec name RecordingMisuseError). -/
structure StandaloneVariableView where
  name : String
  variable_ : StandaloneArrayVariable
deriving DecidableEq, Repr

namespace StandaloneVariableView

/-- The getitem method of StandaloneVariableView raises
NotImplementedError for every item. -/
def getItem (_view : StandaloneVariableView) (_item : IndexSel) :
    Except StandaloneError Int :=
  .error .recordingMisuse

end StandaloneVariableView

/-! ### Operations on a dynamic descriptor and replay of the log -/

/-- An abstract operation a caller performs on a dynamic descriptor:
either a write through set_value (the index argument may be absent, in
the source it defaults to None) or a resize call. -/
inductive DynOp where
  | writeOp (idx : Option IndexSel) (value : Int)
  | resizeOp (new_size : Nat)
deriving DecidableEq, Repr

/-- Recording one operation on a descriptor goes through the methods of
the source: a write calls set_value, a resize calls resize. -/
def recordOp (v : StandaloneArrayVariable) : DynOp → StandaloneArrayVariable
  | .writeOp idx value => v.set_value value idx
  | .resizeOp n => v.resize n

/-- Recording a whole call sequence in order. -/
def recordOps (v : StandaloneArrayVariable) (ops : List DynOp) :
    StandaloneArrayVariable :=
  ops.foldl recordOp v

/-- The log entry that one operation appends (writes as (index, value)
pairs with None replaced by the full slice, resizes as resize-tagged
entries). -/
def opToEntry : DynOp → AssignEntry
  | .writeOp idx value => AssignEntry.write (idx.getD .fullSlice) value
  | .resizeOp n => AssignEntry.resizeEntry n

/-- Modelled from the spec: replay of one log entry against the current
array contents.  A full-slice write sets every element present, an
indexed write sets that element, a resize truncates or zero-extends to
the new length.  The replay function itself is not in the provided
source file; the spec describes it in its testable properties and in the
design note on the deferred write/resize log. -/
def applyEntry (arr : List Int) : AssignEntry → List Int
  | .write .fullSlice value => arr.map (fun _ => value)
  | .write (.atIdx i) value => arr.set i value
  | .resizeEntry n =>
      if n ≤ arr.length then arr.take n
      else arr ++ List.replicate (n - arr.length) 0

/-- Replaying a recorded log in order against an empty array. -/
def replay (entries : List AssignEntry) : List Int :=
  entries.foldl applyEntry []

/-- Eager semantics of one operation applied directly to an array: the
same effect the operation would have if it were executed immediately
instead of being recorded (a write with an absent index selector applies
to the whole array). -/
def eagerStep (arr : List Int) : DynOp → List Int
  | .writeOp none value => arr.map (fun _ => value)
  | .writeOp (some .fullSlice) value => arr.map (fun _ => value)
  | .writeOp (some (.atIdx i)) value => arr.set i value
  | .resizeOp n =>
      if n ≤ arr.length then arr.take n
      else arr ++ List.replicate (n - arr.length) 0

/-- Applying a whole operation sequence eagerly, in order, starting from
an empty array. -/
def eagerRun (ops : List DynOp) : List Int :=
  ops.foldl eagerStep []

/-! ### The device registries and the recording phase -/

/-- One entry of array_specs: (name, c_data_type(dtype), size), the name
already rendered as _array_owner_name. -/
structure ArraySpec where
  name : String
  ctype : String
  size : Nat
deriving DecidableEq, Repr

/-- One entry of zero_specs: same triple as an ArraySpec, marking the
array for zero-filling. -/
structure ZeroSpec where
  name : String
  ctype : String
  size : Nat
deriving DecidableEq, Repr

/-- One entry of arange_specs: (name, c_data_type(dtype), start, size). -/
structure ArangeSpec where
  name : String
  ctype : String
  start : Int
  size : Nat
deriving DecidableEq, Repr

/-- One entry of dynamic_array_specs: (name, c_data_type(dtype)). -/
structure DynamicArraySpec where
  name : String
  ctype : String
deriving DecidableEq, Repr

/-- A namespace snapshot captured by a queued network run; scalar
bindings are all the claims need. -/
abbrev NamespaceSnap : Type := List (String × Int)

/-- An update handler extracted from the objects of a network during
build: the source accepts exactly the class CodeObjectUpdater (recorded
here with the name of the code object that owns it) and raises
NotImplementedError for every other class. -/
inductive Updater where
  | codeObjectUpdater (codeobjName : String)
  | otherUpdater (clsName : String)
deriving DecidableEq, Repr

/-- The part of a network the build pass consumes: after
_prepare_for_device the updaters of its objects, already in running
order (pre-ordered collaborator list per the spec). -/
structure NetworkRef where
  netName : String
  updaters : List Updater
deriving DecidableEq, Repr

/-- One entry of main_queue: a (func, args) pair in the source, a tagged
variant here.  run_network captures the network, the duration and the
namespace snapshot at call time. -/
inductive MainQueueEntry where
  | run_code_object (codeobjName : String)
  | run_network (net : NetworkRef) (duration : ℚ) (ns : NamespaceSnap)
deriving DecidableEq

/-- The registries of CPPStandaloneDevice, as initialised by its
constructor (all empty).  code_objects is a name-keyed registry; its
values are kept abstract as rendered code text, synapses as a list of
names of registered synapse objects (held non-owning in the source). -/
structure DeviceState where
  array_specs : List ArraySpec
  dynamic_array_specs : List DynamicArraySpec
  zero_specs : List ZeroSpec
  arange_specs : List ArangeSpec
  code_objects : List (String × String)
  main_queue : List MainQueueEntry
  synapses : List String

/-- The freshly constructed device: every registry empty. -/
def initialDevice : DeviceState :=
  { array_specs := []
    dynamic_array_specs := []
    zero_specs := []
    arange_specs := []
    code_objects := []
    main_queue := []
    synapses := [] }

/-- The array name rendered by the device: _array_ownerName_name. -/
def arrayNameFor (ownerName name : String) : String :=
  "_array_" ++ ownerName ++ "_" ++ name

namespace CPPStandaloneDevice

/-- The array method of CPPStandaloneDevice: resolve the dtype (is_bool
forces the bool dtype, an absent dtype falls back to the scalar-dtype
preference), append one ArraySpec and one ZeroSpec for the rendered
name, and return a fresh write-deferred descriptor.  No name-collision
check is performed and the method never fails. -/
def array (d : DeviceState) (ownerName name : String) (size : Nat)
    (dtype : Option Dtype) (constant : Bool) (is_bool : Bool) :
    DeviceState × StandaloneArrayVariable :=
  let dt := if is_bool then Dtype.boolDtype else dtype.getD default_scalar_dtype
  let an := arrayNameFor ownerName name
  ({ d with
      array_specs := d.array_specs ++ [⟨an, c_data_type dt, size⟩]
      zero_specs := d.zero_specs ++ [⟨an, c_data_type dt, size⟩] },
   { name := name, size := size, dtype := dt, group_name := ownerName,
     constant := constant, is_bool := is_bool, assignments := [] })

/-- The arange method of CPPStandaloneDevice (the sequential variant):
append one ArraySpec and one ArangeSpec (with the start value) for the
rendered name and return a fresh descriptor.  The dtype defaults to
int32 and constant to true in the source signature.  No name-collision
check, never fails. -/
def arange (d : DeviceState) (ownerName name : String) (size : Nat)
    (start : Int) (dtype : Dtype) (constant : Bool) :
    DeviceState × StandaloneArrayVariable :=
  let an := arrayNameFor ownerName name
  ({ d with
      array_specs := d.array_specs ++ [⟨an, c_data_type dtype, size⟩]
      arange_specs := d.arange_specs ++ [⟨an, c_data_type dtype, start, size⟩] },
   { name := name, size := size, dtype := dtype, group_name := ownerName,
     constant := constant, is_bool := false, assignments := [] })

/-- The dynamic_array_1d method: resolve the dtype as in array, append
one DynamicArraySpec (no initializer spec) for the rendered name
_dynamic_array_ownerName_name, and return a fresh dynamic descriptor. -/
def dynamic_array_1d (d : DeviceState) (ownerName name : String)
    (size : Nat) (dtype : Option Dtype) (constant : Bool) (is_bool : Bool) :
    DeviceState × StandaloneArrayVariable :=
  let dt := if is_bool then Dtype.boolDtype else dtype.getD default_scalar_dtype
  ({ d with
      dynamic_array_specs := d.dynamic_array_specs ++
        [⟨"_dynamic_array_" ++ ownerName ++ "_" ++ name, c_data_type dt⟩] },
   { name := name, size := size, dtype := dt, group_name := ownerName,
     constant := constant, is_bool := is_bool, assignments := [] })

end CPPStandaloneDevice

/-- The run method of the standalone Network subclass: when the
namespace argument is absent it is filled with the local namespace of
the call site (get_local_namespace), and then the single statement of
the method appends one run_network entry carrying the network itself,
the duration and that namespace to main_queue of the device.  Nothing
else happens at call time. -/
def Network.run (d : DeviceState) (net : NetworkRef) (duration : ℚ)
    (ns : Option NamespaceSnap) (localNs : NamespaceSnap) : DeviceState :=
  let captured := ns.getD localNs
  { d with main_queue :=
      d.main_queue ++ [MainQueueEntry.run_network net duration captured] }

/-! ### The build pass: walking the main queue -/

/-- The Python conversion int(q) applied to an exact quotient: truncation
toward zero.  In build the step count is computed as
int(duration / defaultclock.dt); durations and the step are embedded as
rationals, so the conversion is truncating division of numerator by
denominator. -/
def pyInt (q : ℚ) : ℤ := Int.tdiv q.num q.den

/-- The run line emitted for a code object: _run_name(t); -/
def runLineFor (codeobjName : String) : String :=
  "_run_" ++ codeobjName ++ "(t);"

/-- Build inspects the class of every updater of the network: a
CodeObjectUpdater yields the run line of its owning code object; any
other class raises NotImplementedError (spec name
UnsupportedFeatureError). -/
def updaterRunLine : Updater → Except StandaloneError String
  | .codeObjectUpdater n => .ok (runLineFor n)
  | .otherUpdater cls => .error (.unsupportedFeature cls)

/-- A line of the emitted main program.  networkLoop is modelled from
the spec: the external network template (templater.network, not part of
the provided source file) wraps the run lines in a loop of num_steps
iterations; its output is kept structured here instead of as opaque
text. -/
inductive MainLine where
  | line (s : String)
  | networkLoop (num_steps : ℤ) (run_lines : List String)
deriving DecidableEq, Repr

/-- Processing one main-queue entry during build.  A run_code_object
entry becomes its single run line.  A run_network entry collects the run
lines of the updaters of the network, computes
num_steps = int(duration / dt) and emits the network template output, a
loop of num_steps iterations around the run lines. -/
def processMainQueueEntry (dt : ℚ) :
    MainQueueEntry → Except StandaloneError (List MainLine)
  | .run_code_object n => .ok [MainLine.line (runLineFor n)]
  | .run_network net duration _ns => do
      let run_lines ← net.updaters.mapM updaterRunLine
      .ok [MainLine.networkLoop (pyInt (duration / dt)) run_lines]

/-- Walking the whole main queue in recorded order and concatenating the
emitted lines. -/
def mainLinesOf (dt : ℚ) (queue : List MainQueueEntry) :
    Except StandaloneError (List MainLine) := do
  let ls ← queue.mapM (processMainQueueEntry dt)
  .ok ls.flatten

/-! ### The build pass: per-unit constant definitions -/

/-- The shape of a variable of a code unit, as the definitions loop of
build distinguishes them: a Subexpression is skipped, an
AttributeVariable carries the owner name, the attrName name and the
value the attrName has at build time (v.get_value()), a
StandaloneDynamicArrayVariable carries its underlying array name, and
any other array variable carries its length and possibly an array
name.  The scalar flag mirrors v.scalar of the source. -/
inductive BuildVar where
  | subexpr
  | attrVar (objName attrName : String) (dtype : Dtype) (valueAtBuild : Int)
  | dynArrayVar (dtype : Dtype) (arrayname : String) (scalar : Bool)
  | arrayVar (length : Nat) (arrayname : Option String) (scalar : Bool)
deriving DecidableEq, Repr

/-- One definition line emitted into the CONSTANTS block of a code unit,
kept structured; renderDef gives the exact source text each constructor
stands for. -/
inductive CodeDef where
  | attrFrozen (ctype k : String) (value : Int)
  | attrFieldRead (ctype k objName attrName : String)
  | numConstDyn (k arrayname : String)
  | aliasDecl (ctype arrayname : String)
  | numConst (k : String) (n : Nat)
deriving DecidableEq, Repr

/-- The exact text of each emitted definition line, as formatted by the
source. -/
def renderDef : CodeDef → String
  | .attrFrozen ctype k value =>
      "const " ++ ctype ++ " " ++ k ++ " = " ++ toString value ++ ";"
  | .attrFieldRead ctype k objName attrName =>
      "const " ++ ctype ++ " " ++ k ++ " = " ++ objName ++ "." ++ attrName ++ ";"
  | .numConstDyn k arrayname =>
      "const int _num" ++ k ++ " = _dynamic" ++ arrayname ++ ".size();"
  | .aliasDecl ctype arrayname =>
      ctype ++ "* " ++ arrayname ++ " = &(_dynamic" ++ arrayname ++ "[0]);"
  | .numConst k n =>
      "const int _num" ++ k ++ " = " ++ toString n ++ ";"

/-- Processing one (k, v) pair of the variables of a code unit, given
the set already_deffed of array names already aliased in this unit.
Follows the branch order of the source: the key t is skipped, a
Subexpression is skipped, an AttributeVariable emits one constant line
(frozen to the build-time value when the attrName is dt_, a run-time
field read on the owner otherwise), and a non-scalar array variable
whose array name is not yet in already_deffed emits either the dynamic
pair (length constant reading the size plus the pointer alias, and the
array name joins already_deffed) or, for a fixed array, the length
constant alone. -/
def processVar (already_deffed : List String) (k : String) (v : BuildVar) :
    List CodeDef × List String :=
  if k = "t" then ([], already_deffed)
  else match v with
    | .subexpr => ([], already_deffed)
    | .attrVar objName attrName dtype value =>
        if attrName = "dt_" then
          ([CodeDef.attrFrozen (c_data_type dtype) k value], already_deffed)
        else
          ([CodeDef.attrFieldRead (c_data_type dtype) k objName attrName],
           already_deffed)
    | .dynArrayVar dtype arrayname scalar =>
        if scalar then ([], already_deffed)
        else if arrayname ∈ already_deffed then ([], already_deffed)
        else ([CodeDef.numConstDyn k arrayname,
               CodeDef.aliasDecl (c_data_type dtype) arrayname],
              already_deffed ++ [arrayname])
    | .arrayVar len arrayname scalar =>
        if scalar then ([], already_deffed)
        else if (arrayname.elim false (fun an => an ∈ already_deffed)) then
          ([], already_deffed)
        else ([CodeDef.numConst k len], already_deffed)

/-- Folding processVar over the variables of one unit, in order,
starting from an empty already_deffed set. -/
def processVarsAux (acc : List CodeDef) (already_deffed : List String) :
    List (String × BuildVar) → List CodeDef
  | [] => acc
  | (k, v) :: rest =>
      let p := processVar already_deffed k v
      processVarsAux (acc ++ p.1) p.2 rest

/-- The definitions emitted for one code unit. -/
def processVars (vars : List (String × BuildVar)) : List CodeDef :=
  processVarsAux [] [] vars

/-- code_object_defs of build: every unit is processed with its own
fresh already_deffed set (the source keys already_deffed by the unit
name), so the emitted definitions of a unit depend on that unit
alone. -/
def code_object_defs (units : List (String × List (String × BuildVar))) :
    List (String × List CodeDef) :=
  units.map (fun u => (u.1, processVars u.2))

/-- Number of alias declarations for a given underlying array name among
a list of emitted definitions. -/
def aliasCount (defs : List CodeDef) (arrayname : String) : Nat :=
  defs.countP (fun d => match d with
    | CodeDef.aliasDecl _ an => an = arrayname
    | _ => false)

/-! ### Namespace freezing -/

/-- A token of generated source text: a maximal identifier-or-number
word, or separator text between words.  This is the shallow embedding of
source strings at the granularity word_substitute works on (whole-word
replacement). -/
inductive Tok where
  | word (s : String)
  | sep (s : String)
deriving DecidableEq, Repr

/-- Decimal digit character. -/
def digitChar (d : Nat) : Char := Char.ofNat (48 + d)

/-- Decimal digit list of a natural number (most significant first),
computed with explicit fuel so that it reduces definitionally; the fuel
n + 1 always suffices because the argument shrinks by a factor of ten
per step. -/
def natDecCharsAux : Nat → Nat → List Char
  | 0, _ => []
  | _fuel + 1, n =>
      if n < 10 then [digitChar n]
      else natDecCharsAux _fuel (n / 10) ++ [digitChar (n % 10)]

/-- Decimal digit list of a natural number. -/
def natDecChars (n : Nat) : List Char := natDecCharsAux (n + 1) n

/-- Decimal string of a natural number. -/
def natDec (n : Nat) : String := String.mk (natDecChars n)

/-- The tokens of the Python literal repr(v) of an integer value: the
digits form one word; a minus sign is a word separator. -/
def reprToks (n : Int) : List Tok :=
  if n < 0 then [Tok.sep "-", Tok.word (natDec n.natAbs)]
  else [Tok.word (natDec n.toNat)]

/-- Substitution of one token: a word equal to the key becomes the
replacement token list, everything else stays. -/
def substTok (k : String) (repl : List Tok) : Tok → List Tok
  | Tok.word w => if w = k then repl else [Tok.word w]
  | Tok.sep s => [Tok.sep s]

/-- Modelled from the spec: word_substitute from brian2.utils.stringtools
(not part of the provided source file) replaces every whole-word
occurrence of the key by the replacement text and leaves everything else
alone. -/
def word_substitute (code : List Tok) (k : String) (repl : List Tok) :
    List Tok :=
  (code.map (substTok k repl)).flatten

/-- A namespace value as the freeze function classifies it: the source
substitutes values that are int or float instances (embedded here by the
integer case) and skips every other value. -/
inductive NsVal where
  | intVal (n : Int)
  | nonNumeric
deriving DecidableEq, Repr

/-- One iteration of the loop inside freeze: a numeric value is
substituted for its key as a whole word, any other value leaves the code
unchanged (the isinstance check of the source). -/
def freezeStep (c : List Tok) (kv : String × NsVal) : List Tok :=
  match kv.2 with
  | NsVal.intVal n => word_substitute c kv.1 (reprToks n)
  | NsVal.nonNumeric => c

/-- freeze of the source: for every namespace item whose value is a
numeric scalar, substitute the key as a whole word by the literal repr
of the value; other items leave the code unchanged. -/
def freeze (code : List Tok) (ns : List (String × NsVal)) : List Tok :=
  ns.foldl freezeStep code

/-- A word is identifier-shaped when it is nonempty and does not start
with a decimal digit; every key a namespace binds is an identifier of
the generated language, and identifiers never start with a digit. -/
def isIdentWord (s : String) : Bool :=
  match s.data with
  | [] => false
  | c :: _ => !c.isDigit

/-! ### Compiling and running the produced project -/

/-- Observable actions of the compile-and-run tail of build. -/
inductive BuildAction where
  | compilerInvoked (debug : Bool)
  | binaryExecuted (with_output : Bool)
deriving DecidableEq, Repr

/-- The two fatal failures of the compile-and-run tail; the source
raises RuntimeError with a distinct message for each, and the spec names
them CompilationError and ExecutionError. -/
inductive BuildFailure where
  | compilationFailed
  | runFailed
deriving DecidableEq, Repr

/-- The RuntimeError message text of each failure in the source. -/
def buildFailureMessage : BuildFailure → String
  | .compilationFailed => "Project compilation failed"
  | .runFailed => "Project run failed"

/-- The compile-and-run tail of build, as a function of the exit status
the compiler invocation would return and the exit status the produced
binary would return.  Returns the actions performed in order and the
failure raised, if any.  Mirrors the source: nothing happens unless
compile_project; the compiler is invoked (debug selecting the flag set);
on exit status 0 and run_project the binary is executed (with_output
selecting the output sink) and a non-zero binary exit raises the run
failure; a non-zero compiler exit raises the compilation failure and the
binary is never executed. -/
def compileRunPhase (compile_project run_project with_output debug : Bool)
    (compilerExit binaryExit : Int) : List BuildAction × Option BuildFailure :=
  if compile_project then
    if compilerExit = 0 then
      if run_project then
        if binaryExit ≠ 0 then
          ([BuildAction.compilerInvoked debug,
            BuildAction.binaryExecuted with_output],
           some BuildFailure.runFailed)
        else
          ([BuildAction.compilerInvoked debug,
            BuildAction.binaryExecuted with_output], none)
      else ([BuildAction.compilerInvoked debug], none)
    else ([BuildAction.compilerInvoked debug],
          some BuildFailure.compilationFailed)
  else ([], none)

/-! ## Supporting lemmas -/

theorem recordOp_assignments (v : StandaloneArrayVariable) (op : DynOp) :
    (recordOp v op).assignments = v.assignments ++ [opToEntry op] := by
  cases op <;>
    simp [recordOp, StandaloneArrayVariable.set_value,
      StandaloneArrayVariable.resize, opToEntry]

theorem recordOps_assignments (ops : List DynOp) :
    ∀ v : StandaloneArrayVariable,
      (recordOps v ops).assignments = v.assignments ++ ops.map opToEntry := by
  induction ops with
  | nil => intro v; simp [recordOps]
  | cons op rest ih =>
      intro v
      have h1 : recordOps v (op :: rest) = recordOps (recordOp v op) rest := rfl
      rw [h1, ih, recordOp_assignments]
      simp

theorem applyEntry_opToEntry (arr : List Int) (op : DynOp) :
    applyEntry arr (opToEntry op) = eagerStep arr op := by
  cases op with
  | writeOp idx value =>
      rcases idx with _ | sel
      · rfl
      · cases sel <;> rfl
  | resizeOp n => rfl

theorem foldl_applyEntry_map (ops : List DynOp) :
    ∀ arr : List Int,
      (ops.map opToEntry).foldl applyEntry arr = ops.foldl eagerStep arr := by
  induction ops with
  | nil => intro arr; rfl
  | cons op rest ih =>
      intro arr
      simp only [List.map_cons, List.foldl_cons, applyEntry_opToEntry]
      exact ih (eagerStep arr op)

/-! ## Claims -/

/-- C1: every sequence of write and resize calls on a dynamic descriptor
appends exactly one entry per call to the single ordered assignments log
in call order (writes as (index, value) pairs, resizes as resize-tagged
entries), and replaying that log in recorded order against an empty
array yields the same final contents and length as applying the same
operations eagerly in the same order. -/
theorem dynamic_log_replay_matches_eager (v0 : StandaloneArrayVariable)
    (ops : List DynOp) (h0 : v0.assignments = []) :
    (∀ v op, (recordOp v op).assignments = v.assignments ++ [opToEntry op]) ∧
    (recordOps v0 ops).assignments = ops.map opToEntry ∧
    (recordOps v0 ops).assignments.length = ops.length ∧
    replay (recordOps v0 ops).assignments = eagerRun ops ∧
    (replay (recordOps v0 ops).assignments).length = (eagerRun ops).length := by
  have hlog : (recordOps v0 ops).assignments = ops.map opToEntry := by
    rw [recordOps_assignments, h0]; simp
  refine ⟨recordOp_assignments, hlog, ?_, ?_, ?_⟩
  · rw [hlog]; simp
  · rw [hlog]; exact foldl_applyEntry_map ops []
  · rw [hlog, replay, foldl_applyEntry_map ops []]; rfl

/-- C1 witness: a concrete sequence of two writes and a resize on a
fresh dynamic descriptor. -/
theorem dynamic_log_replay_matches_eager_witness :
    (CPPStandaloneDevice.dynamic_array_1d initialDevice "grp" "v" 0 none
        false false).2.assignments = [] ∧
    replay (recordOps
        (CPPStandaloneDevice.dynamic_array_1d initialDevice "grp" "v" 0 none
          false false).2
        [DynOp.resizeOp 3, DynOp.writeOp none 7,
         DynOp.writeOp (some (IndexSel.atIdx 1)) 2]).assignments
      = eagerRun [DynOp.resizeOp 3, DynOp.writeOp none 7,
         DynOp.writeOp (some (IndexSel.atIdx 1)) 2] :=
  ⟨by decide,
   (dynamic_log_replay_matches_eager
      (CPPStandaloneDevice.dynamic_array_1d initialDevice "grp" "v" 0 none
        false false).2
      [DynOp.resizeOp 3, DynOp.writeOp none 7,
       DynOp.writeOp (some (IndexSel.atIdx 1)) 2]
      (by decide)).2.2.2.1⟩

/-- C10: a write through set_value that supplies no index selector is
recorded as a whole-array write with the full-slice index, and replaying
such an entry sets every element present at that point of the log (the
length is preserved and every position holds the written value). -/
theorem write_without_index_is_full_slice (v : StandaloneArrayVariable)
    (value : Int) (arr : List Int) :
    (v.set_value value none).assignments
      = v.assignments ++ [AssignEntry.write IndexSel.fullSlice value] ∧
    applyEntry arr (AssignEntry.write IndexSel.fullSlice value)
      = List.replicate arr.length value ∧
    (applyEntry arr (AssignEntry.write IndexSel.fullSlice value)).length
      = arr.length := by
  refine ⟨rfl, ?_, ?_⟩
  · simp [applyEntry, List.map_const']
  · simp [applyEntry]

/-- C4: reading a descriptor before build always fails: get_value raises
for every descriptor state (empty or non-empty log), indexing through
the addressable view raises for every item, and no read path ever
returns a value.  The source raises NotImplementedError, which the spec
taxonomy names RecordingMisuseError. -/
theorem read_before_build_fails (v : StandaloneArrayVariable)
    (view : StandaloneVariableView) (item : IndexSel) :
    v.get_value = Except.error StandaloneError.recordingMisuse ∧
    view.getItem item = Except.error StandaloneError.recordingMisuse ∧
    (∀ val, v.get_value ≠ Except.ok val) ∧
    (∀ x, view.getItem item ≠ Except.ok x) := by
  refine ⟨rfl, rfl, ?_, ?_⟩ <;> intro x h <;> cases h

/-- C6: registering a fixed array appends exactly one ArraySpec and
exactly one matching zero-fill spec (same name, element type and size)
and leaves the arange and dynamic spec lists untouched; the sequential
variant appends exactly one ArraySpec and exactly one matching arange
spec and leaves the zero-fill and dynamic lists untouched.  Both hold
for an arbitrary prior device state, so the calls always succeed without
any name-collision check. -/
theorem register_fixed_one_spec_pair (d : DeviceState)
    (ownerName name : String) (size : Nat) (dtype : Option Dtype)
    (dtype2 : Dtype) (start : Int) (constant is_bool : Bool) :
    (∃ a : ArraySpec, ∃ z : ZeroSpec,
      (CPPStandaloneDevice.array d ownerName name size dtype constant
          is_bool).1.array_specs = d.array_specs ++ [a] ∧
      (CPPStandaloneDevice.array d ownerName name size dtype constant
          is_bool).1.zero_specs = d.zero_specs ++ [z] ∧
      a.name = arrayNameFor ownerName name ∧
      z.name = a.name ∧ z.ctype = a.ctype ∧ z.size = a.size ∧ a.size = size) ∧
    (CPPStandaloneDevice.array d ownerName name size dtype constant
        is_bool).1.arange_specs = d.arange_specs ∧
    (CPPStandaloneDevice.array d ownerName name size dtype constant
        is_bool).1.dynamic_array_specs = d.dynamic_array_specs ∧
    (∃ a : ArraySpec, ∃ g : ArangeSpec,
      (CPPStandaloneDevice.arange d ownerName name size start dtype2
          constant).1.array_specs = d.array_specs ++ [a] ∧
      (CPPStandaloneDevice.arange d ownerName name size start dtype2
          constant).1.arange_specs = d.arange_specs ++ [g] ∧
      a.name = arrayNameFor ownerName name ∧
      g.name = a.name ∧ g.ctype = a.ctype ∧ g.size = a.size ∧
      g.start = start ∧ a.size = size) ∧
    (CPPStandaloneDevice.arange d ownerName name size start dtype2
        constant).1.zero_specs = d.zero_specs ∧
    (CPPStandaloneDevice.arange d ownerName name size start dtype2
        constant).1.dynamic_array_specs = d.dynamic_array_specs := by
  refine ⟨⟨_, _, rfl, rfl, rfl, rfl, rfl, rfl, rfl⟩, rfl, rfl,
    ⟨_, _, rfl, rfl, rfl, rfl, rfl, rfl, rfl, rfl⟩, rfl, rfl⟩

/-- C9: enqueuing a network run is pure recording: the call appends
exactly one run_network entry capturing the network, the duration and
the namespace snapshot to main_queue, and every other registry of the
device (array, zero, arange and dynamic specs, code objects, synapses)
is left unchanged; nothing is executed. -/
theorem network_run_pure_recording (d : DeviceState) (net : NetworkRef)
    (duration : ℚ) (ns : Option NamespaceSnap) (localNs : NamespaceSnap) :
    (Network.run d net duration ns localNs).main_queue
      = d.main_queue
        ++ [MainQueueEntry.run_network net duration (ns.getD localNs)] ∧
    (Network.run d net duration ns localNs).main_queue.length
      = d.main_queue.length + 1 ∧
    (Network.run d net duration ns localNs).array_specs = d.array_specs ∧
    (Network.run d net duration ns localNs).zero_specs = d.zero_specs ∧
    (Network.run d net duration ns localNs).arange_specs = d.arange_specs ∧
    (Network.run d net duration ns localNs).dynamic_array_specs
      = d.dynamic_array_specs ∧
    (Network.run d net duration ns localNs).code_objects = d.code_objects ∧
    (Network.run d net duration ns localNs).synapses = d.synapses := by
  refine ⟨rfl, ?_, rfl, rfl, rfl, rfl, rfl, rfl⟩
  simp [Network.run]

/-- C3: when the compiler invocation returns a non-zero exit status the
produced binary is never executed, even when the run option was
requested, and the failure raised is the compilation failure, which is
distinct (as a value and in its message text) from the run failure
raised when the compiled binary itself exits non-zero. -/
theorem compiler_failure_aborts_before_run
    (run_project with_output debug : Bool) (compilerExit binaryExit : Int)
    (h : compilerExit ≠ 0) :
    (compileRunPhase true run_project with_output debug compilerExit
        binaryExit).2 = some BuildFailure.compilationFailed ∧
    (∀ w, BuildAction.binaryExecuted w
        ∉ (compileRunPhase true run_project with_output debug compilerExit
            binaryExit).1) ∧
    BuildFailure.compilationFailed ≠ BuildFailure.runFailed ∧
    buildFailureMessage BuildFailure.compilationFailed
      ≠ buildFailureMessage BuildFailure.runFailed ∧
    (∀ e : Int, e ≠ 0 →
      (compileRunPhase true true with_output debug 0 e).2
        = some BuildFailure.runFailed) := by
  refine ⟨?_, ?_, by decide, by decide, ?_⟩
  · simp [compileRunPhase, h]
  · intro w; simp [compileRunPhase, h]
  · intro e he; simp [compileRunPhase, he]

/-- C3 witness: compiler exit status 1 with the run option requested. -/
theorem compiler_failure_aborts_before_run_witness :
    ((1 : Int) ≠ 0) ∧
    (compileRunPhase true true true true 1 0).2
      = some BuildFailure.compilationFailed ∧
    BuildAction.binaryExecuted true ∉ (compileRunPhase true true true true 1 0).1 :=
  ⟨by decide,
   (compiler_failure_aborts_before_run true true true 1 0 (by decide)).1,
   (compiler_failure_aborts_before_run true true true 1 0 (by decide)).2.1 true⟩

/-- Python int() truncates toward zero; on a nonnegative rational this
agrees with the floor. -/
theorem pyInt_eq_floor (q : ℚ) (h : 0 ≤ q) : pyInt q = ⌊q⌋ := by
  rw [pyInt, Int.tdiv_eq_ediv (Rat.num_nonneg.mpr h) (Int.ofNat_nonneg q.den),
    Rat.floor_def]

/-- C2: a run_network queue entry with duration D processed by build
under global step size S emits the network template output wrapping the
run lines of that network in a loop of exactly floor(D / S) iterations;
in particular D = 0 yields a loop of zero iterations. -/
theorem run_network_emits_floor_steps (S D : ℚ) (net : NetworkRef)
    (ns : NamespaceSnap) (run_lines : List String)
    (hD : 0 ≤ D) (hS : 0 < S)
    (hud : net.updaters.mapM updaterRunLine = Except.ok run_lines) :
    processMainQueueEntry S (MainQueueEntry.run_network net D ns)
      = Except.ok [MainLine.networkLoop ⌊D / S⌋ run_lines] ∧
    (D = 0 →
      processMainQueueEntry S (MainQueueEntry.run_network net D ns)
        = Except.ok [MainLine.networkLoop 0 run_lines]) := by
  have hq : (0 : ℚ) ≤ D / S := div_nonneg hD hS.le
  have hfloor : pyInt (D / S) = ⌊D / S⌋ := pyInt_eq_floor _ hq
  have hrun : processMainQueueEntry S (MainQueueEntry.run_network net D ns)
      = Except.bind (net.updaters.mapM updaterRunLine)
          (fun rl => Except.ok [MainLine.networkLoop (pyInt (D / S)) rl]) := rfl
  constructor
  · rw [hrun, hud]
    simp [Except.bind, hfloor]
  · intro h0
    subst h0
    rw [hrun, hud]
    simp only [Except.bind, hfloor]
    norm_num

/-- C2 witness: duration 3/2 with step 1/2 gives a three-iteration loop
for a network with one code-object updater. -/
theorem run_network_emits_floor_steps_witness :
    ((0 : ℚ) ≤ 3 / 2) ∧ ((0 : ℚ) < 1 / 2) ∧
    processMainQueueEntry (1 / 2)
        (MainQueueEntry.run_network
          ⟨"n", [Updater.codeObjectUpdater "u"]⟩ (3 / 2) [])
      = Except.ok [MainLine.networkLoop 3 ["_run_u(t);"]] := by
  refine ⟨by norm_num, by norm_num, ?_⟩
  have h := (run_network_emits_floor_steps (1 / 2) (3 / 2)
    ⟨"n", [Updater.codeObjectUpdater "u"]⟩ [] ["_run_u(t);"]
    (by norm_num) (by norm_num) rfl).1
  rw [h]
  norm_num

/-- C5 counterexample: an AttributeVariable whose attribute is dt_ is
frozen to its build-time value, not emitted as a run-time field read:
the definitions loop of build emits the literal constant line for it
(TODO comment of the source: handle dt in the correct way). -/
theorem attr_read_frozen_for_dt_counterexample :
    processVar [] "dt"
        (BuildVar.attrVar "defaultclock" "dt_" Dtype.float64 1)
      = ([CodeDef.attrFrozen "double" "dt" 1], []) ∧
    renderDef (CodeDef.attrFrozen "double" "dt" 1)
      = "const double dt = 1;" ∧
    CodeDef.attrFrozen "double" "dt" 1
      ≠ CodeDef.attrFieldRead "double" "dt" "defaultclock" "dt_" := by
  refine ⟨by decide, by decide, by decide⟩

/-- C5 (amended): during the definitions pass of build, every
AttributeVariable symbol other than the symbol t (which is skipped) and
other than an attribute named dt_ (which is frozen to its build-time
value) is emitted as a source-level field read on its owner, evaluated
at run time of the generated program, and is not frozen. -/
theorem attr_read_emitted_as_runtime_field_read (s : List String)
    (k objName a : String) (dt : Dtype) (value : Int)
    (hk : k ≠ "t") (ha : a ≠ "dt_") :
    processVar s k (BuildVar.attrVar objName a dt value)
      = ([CodeDef.attrFieldRead (c_data_type dt) k objName a], s) ∧
    renderDef (CodeDef.attrFieldRead (c_data_type dt) k objName a)
      = "const " ++ c_data_type dt ++ " " ++ k ++ " = "
        ++ objName ++ "." ++ a ++ ";" := by
  constructor
  · simp [processVar, hk, ha]
  · rfl

/-- C5 witness: a rate attribute of a concrete owner. -/
theorem attr_read_emitted_as_runtime_field_read_witness :
    ("x" ≠ "t") ∧ ("rate" ≠ "dt_") ∧
    processVar [] "x" (BuildVar.attrVar "grp" "rate" Dtype.float64 5)
      = ([CodeDef.attrFieldRead "double" "x" "grp" "rate"], []) ∧
    renderDef (CodeDef.attrFieldRead "double" "x" "grp" "rate")
      = "const double x = grp.rate;" :=
  ⟨by decide, by decide,
   (attr_read_emitted_as_runtime_field_read [] "x" "grp" "rate"
      Dtype.float64 5 (by decide) (by decide)).1,
   by decide⟩

/-- Counting aliases distributes over list append. -/
theorem aliasCount_append (a b : List CodeDef) (A : String) :
    aliasCount (a ++ b) A = aliasCount a A + aliasCount b A := by
  simp [aliasCount, List.countP_append]

theorem aliasCount_nil (A : String) : aliasCount [] A = 0 := rfl

theorem aliasCount_cons_aliasDecl (ct an : String) (l : List CodeDef)
    (A : String) :
    aliasCount (CodeDef.aliasDecl ct an :: l) A
      = aliasCount l A + (if an = A then 1 else 0) := by
  by_cases h : an = A <;> simp [aliasCount, List.countP_cons, h]

theorem aliasCount_cons_numConstDyn (k an : String) (l : List CodeDef)
    (A : String) :
    aliasCount (CodeDef.numConstDyn k an :: l) A = aliasCount l A := by
  simp [aliasCount, List.countP_cons]

theorem aliasCount_cons_numConst (k : String) (n : Nat) (l : List CodeDef)
    (A : String) :
    aliasCount (CodeDef.numConst k n :: l) A = aliasCount l A := by
  simp [aliasCount, List.countP_cons]

theorem aliasCount_cons_attrFrozen (ct k : String) (val : Int)
    (l : List CodeDef) (A : String) :
    aliasCount (CodeDef.attrFrozen ct k val :: l) A = aliasCount l A := by
  simp [aliasCount, List.countP_cons]

theorem aliasCount_cons_attrFieldRead (ct k o a : String)
    (l : List CodeDef) (A : String) :
    aliasCount (CodeDef.attrFieldRead ct k o a :: l) A = aliasCount l A := by
  simp [aliasCount, List.countP_cons]

/-- Processing one variable preserves the dedup invariant: the number of
alias declarations emitted so far for an array name is one when the name
is in already_deffed and zero otherwise. -/
theorem processVar_alias_invariant (s : List String) (k : String)
    (v : BuildVar) (A : String) (acc : List CodeDef)
    (h : aliasCount acc A = if A ∈ s then 1 else 0) :
    aliasCount (acc ++ (processVar s k v).1) A
      = if A ∈ (processVar s k v).2 then 1 else 0 := by
  rw [aliasCount_append]
  by_cases hk : k = "t"
  · simpa [processVar, hk, aliasCount_nil] using h
  · cases v with
    | subexpr => simpa [processVar, hk, aliasCount_nil] using h
    | attrVar o a dt val =>
        by_cases ha : a = "dt_" <;>
          simpa [processVar, hk, ha, aliasCount_nil,
            aliasCount_cons_attrFrozen, aliasCount_cons_attrFieldRead] using h
    | dynArrayVar dt an scalar =>
        cases scalar with
        | true => simpa [processVar, hk, aliasCount_nil] using h
        | false =>
            by_cases hmem : an ∈ s
            · simpa [processVar, hk, hmem, aliasCount_nil] using h
            · by_cases hA : an = A
              · subst hA
                rw [h]
                simp [processVar, hk, hmem, aliasCount_nil,
                  aliasCount_cons_numConstDyn, aliasCount_cons_aliasDecl]
              · have hA2 : ¬(A = an) := fun he => hA he.symm
                rw [h]
                simp [processVar, hk, hmem, hA, hA2, aliasCount_nil,
                  aliasCount_cons_numConstDyn, aliasCount_cons_aliasDecl,
                  List.mem_append]
    | arrayVar len an scalar =>
        cases scalar with
        | true => simpa [processVar, hk, aliasCount_nil] using h
        | false =>
            by_cases hmem : an.elim false (fun x => x ∈ s) = true <;>
              simpa [processVar, hk, hmem, aliasCount_nil,
                aliasCount_cons_numConst] using h

/-- The folded definitions pass keeps at most one alias per array name. -/
theorem processVars_alias_bound (vars : List (String × BuildVar))
    (A : String) : aliasCount (processVars vars) A ≤ 1 := by
  have main : ∀ (vs : List (String × BuildVar)) (acc : List CodeDef)
      (s : List String), aliasCount acc A = (if A ∈ s then 1 else 0) →
      aliasCount (processVarsAux acc s vs) A ≤ 1 := by
    intro vs
    induction vs with
    | nil =>
        intro acc s h
        rw [processVarsAux, h]
        split <;> norm_num
    | cons kv rest ih =>
        intro acc s h
        obtain ⟨k, v⟩ := kv
        have step := processVar_alias_invariant s k v A acc h
        show aliasCount
            (processVarsAux (acc ++ (processVar s k v).1)
              (processVar s k v).2 rest) A ≤ 1
        exact ih _ _ step
  exact main vars [] [] (by simp [aliasCount])

/-- C7: within each emitted code unit every underlying array referenced
through dynamic array bindings is aliased (pointer declaration plus
length constant) at most once, even when several distinct symbols of the
unit reference the same underlying array; and since every unit is
processed with its own fresh dedup set, the same array may be aliased
again in a different unit (witnessed by the concrete two-unit build in
the second conjunct, where unit u1 references arrA through two symbols
yet aliases it once, and unit u2 aliases it again). -/
theorem array_alias_deduplicated_per_unit
    (units : List (String × List (String × BuildVar)))
    (uname : String) (defs : List CodeDef) (A : String)
    (h : (uname, defs) ∈ code_object_defs units) :
    aliasCount defs A ≤ 1 ∧
    code_object_defs
        [("u1", [("x", BuildVar.dynArrayVar Dtype.float64 "arrA" false),
                 ("y", BuildVar.dynArrayVar Dtype.float64 "arrA" false)]),
         ("u2", [("z", BuildVar.dynArrayVar Dtype.float64 "arrA" false)])]
      = [("u1", [CodeDef.numConstDyn "x" "arrA",
                 CodeDef.aliasDecl "double" "arrA"]),
         ("u2", [CodeDef.numConstDyn "z" "arrA",
                 CodeDef.aliasDecl "double" "arrA"])] := by
  constructor
  · rw [code_object_defs] at h
    obtain ⟨⟨un, vs⟩, _, heq⟩ := List.mem_map.mp h
    have hdefs : processVars vs = defs := congrArg Prod.snd heq
    rw [← hdefs]
    exact processVars_alias_bound vs A
  · decide

/-- C7 witness: membership of the first unit of the concrete two-unit
build, and the alias bound for it. -/
theorem array_alias_deduplicated_per_unit_witness :
    (("u1", [CodeDef.numConstDyn "x" "arrA",
             CodeDef.aliasDecl "double" "arrA"])
      ∈ code_object_defs
          [("u1", [("x", BuildVar.dynArrayVar Dtype.float64 "arrA" false),
                   ("y", BuildVar.dynArrayVar Dtype.float64 "arrA" false)]),
           ("u2", [("z", BuildVar.dynArrayVar Dtype.float64 "arrA" false)])]) ∧
    aliasCount [CodeDef.numConstDyn "x" "arrA",
                CodeDef.aliasDecl "double" "arrA"] "arrA" ≤ 1 :=
  ⟨by decide,
   (array_alias_deduplicated_per_unit
      [("u1", [("x", BuildVar.dynArrayVar Dtype.float64 "arrA" false),
               ("y", BuildVar.dynArrayVar Dtype.float64 "arrA" false)]),
       ("u2", [("z", BuildVar.dynArrayVar Dtype.float64 "arrA" false)])]
      "u1"
      [CodeDef.numConstDyn "x" "arrA", CodeDef.aliasDecl "double" "arrA"]
      "arrA" (by decide)).1⟩

/-! ## Lemmas about freezing -/

theorem isDigit_digitChar (d : Nat) (h : d < 10) :
    (digitChar d).isDigit = true := by
  interval_cases d <;> decide

theorem natDecCharsAux_digits (fuel : Nat) :
    ∀ n : Nat, ∀ c ∈ natDecCharsAux fuel n, c.isDigit = true := by
  induction fuel with
  | zero => intro n c hc; simp [natDecCharsAux] at hc
  | succ fuel ih =>
      intro n c hc
      by_cases h : n < 10
      · simp [natDecCharsAux, h] at hc
        subst hc
        exact isDigit_digitChar n h
      · simp [natDecCharsAux, h] at hc
        rcases hc with hc | hc
        · exact ih _ c hc
        · subst hc
          exact isDigit_digitChar _ (Nat.mod_lt _ (by norm_num))

theorem natDecCharsAux_ne_nil (fuel n : Nat) :
    natDecCharsAux (fuel + 1) n ≠ [] := by
  simp only [natDecCharsAux]
  split <;> simp

/-- A decimal literal word never has identifier shape: its first
character is a digit. -/
theorem isIdentWord_natDec (n : Nat) : isIdentWord (natDec n) = false := by
  have hne : natDecChars n ≠ [] := natDecCharsAux_ne_nil n n
  have hdig : ∀ c ∈ natDecChars n, c.isDigit = true :=
    natDecCharsAux_digits (n + 1) n
  rw [natDec]
  cases hl : natDecChars n with
  | nil => exact absurd hl hne
  | cons c cs =>
      have hc : c.isDigit = true := by
        apply hdig
        rw [hl]
        exact List.mem_cons_self c cs
      simp [isIdentWord, hc]

/-- An identifier-shaped key never occurs among the tokens of a numeric
literal replacement. -/
theorem word_not_in_reprToks (k : String) (n : Int)
    (hk : isIdentWord k = true) : Tok.word k ∉ reprToks n := by
  intro hmem
  rw [reprToks] at hmem
  have : k = natDec n.natAbs ∨ k = natDec n.toNat := by
    by_cases hn : n < 0
    · simp [hn] at hmem
      exact Or.inl hmem
    · simp [hn] at hmem
      exact Or.inr hmem
  rcases this with h | h <;>
    · rw [h] at hk
      rw [isIdentWord_natDec] at hk
      exact Bool.false_ne_true hk

theorem substTok_of_ne (k : String) (repl : List Tok) (t : Tok)
    (h : t ≠ Tok.word k) : substTok k repl t = [t] := by
  cases t with
  | word w =>
      have hw : ¬(w = k) := fun he => h (by rw [he])
      simp [substTok, hw]
  | sep s => rfl

theorem mem_substTok (k : String) (repl : List Tok) (t x : Tok)
    (h : x ∈ substTok k repl t) :
    x ∈ repl ∨ (x = t ∧ t ≠ Tok.word k) := by
  cases t with
  | word w =>
      by_cases hw : w = k
      · subst hw
        simp [substTok] at h
        exact Or.inl h
      · simp [substTok, hw] at h
        subst h
        exact Or.inr ⟨rfl, fun he => hw (by injection he)⟩
  | sep s =>
      simp [substTok] at h
      subst h
      exact Or.inr ⟨rfl, fun he => by cases he⟩

theorem word_substitute_of_not_mem (code : List Tok) (k : String)
    (repl : List Tok) (h : Tok.word k ∉ code) :
    word_substitute code k repl = code := by
  induction code with
  | nil => rfl
  | cons x rest ih =>
      have hx : x ≠ Tok.word k := fun he => h (he ▸ List.mem_cons_self x rest)
      have hr : Tok.word k ∉ rest := fun hm => h (List.mem_cons_of_mem x hm)
      show substTok k repl x ++ word_substitute rest k repl = x :: rest
      rw [substTok_of_ne k repl x hx, ih hr]
      rfl

theorem mem_word_substitute (code : List Tok) (k : String)
    (repl : List Tok) (t : Tok) (h : t ∈ word_substitute code k repl) :
    t ∈ repl ∨ (t ∈ code ∧ t ≠ Tok.word k) := by
  induction code with
  | nil => simp [word_substitute] at h
  | cons x rest ih =>
      have hsplit : t ∈ substTok k repl x ∨ t ∈ word_substitute rest k repl := by
        have : t ∈ substTok k repl x ++ word_substitute rest k repl := h
        exact List.mem_append.mp this
      rcases hsplit with h1 | h2
      · rcases mem_substTok k repl x t h1 with hr | ⟨hx, hne⟩
        · exact Or.inl hr
        · exact Or.inr ⟨hx ▸ List.mem_cons_self x rest, hx ▸ hne⟩
      · rcases ih h2 with hr | ⟨hc, hne⟩
        · exact Or.inl hr
        · exact Or.inr ⟨List.mem_cons_of_mem x hc, hne⟩

/-- Freezing never introduces an identifier-shaped word that was absent:
every token it inserts is part of a numeric literal. -/
theorem freeze_preserves_absence (ns : List (String × NsVal)) :
    ∀ code (k : String), isIdentWord k = true → Tok.word k ∉ code →
      Tok.word k ∉ freeze code ns := by
  induction ns with
  | nil => intro code k _ h; exact h
  | cons kv rest ih =>
      intro code k hk h
      show Tok.word k ∉ freeze (freezeStep code kv) rest
      apply ih _ k hk
      obtain ⟨k2, v2⟩ := kv
      cases v2 with
      | nonNumeric => exact h
      | intVal n =>
          intro hmem
          rcases mem_word_substitute _ _ _ _ hmem with hr | ⟨hc, _⟩
          · exact word_not_in_reprToks k n hk hr
          · exact h hc

/-- After freezing, no identifier-shaped numeric key of the namespace
occurs as a word of the code any more. -/
theorem freeze_removes_key (ns : List (String × NsVal)) :
    ∀ code (k : String) (n : Int), isIdentWord k = true →
      (k, NsVal.intVal n) ∈ ns → Tok.word k ∉ freeze code ns := by
  induction ns with
  | nil => intro code k n _ h; simp at h
  | cons kv rest ih =>
      intro code k n hk hmem
      rcases List.mem_cons.mp hmem with heq | htail
      · show Tok.word k ∉ freeze (freezeStep code kv) rest
        apply freeze_preserves_absence rest _ k hk
        rw [← heq]
        intro hm
        rcases mem_word_substitute _ _ _ _ hm with hr | ⟨_, hne⟩
        · exact word_not_in_reprToks k n hk hr
        · exact hne rfl
      · exact ih (freezeStep code kv) k n hk htail

/-- Freezing a code text in which no numeric key of the namespace occurs
as a word changes nothing. -/
theorem freeze_of_no_keys (ns : List (String × NsVal)) :
    ∀ code, (∀ (k : String) (n : Int),
        (k, NsVal.intVal n) ∈ ns → Tok.word k ∉ code) →
      freeze code ns = code := by
  induction ns with
  | nil => intro code _; rfl
  | cons kv rest ih =>
      intro code h
      obtain ⟨k2, v2⟩ := kv
      cases v2 with
      | nonNumeric =>
          show freeze code rest = code
          exact ih code (fun k n hm => h k n (List.mem_cons_of_mem _ hm))
      | intVal n =>
          have h1 : Tok.word k2 ∉ code := h k2 n (List.mem_cons_self _ _)
          show freeze (word_substitute code k2 (reprToks n)) rest = code
          rw [word_substitute_of_not_mem code k2 _ h1]
          exact ih code (fun k n hm => h k n (List.mem_cons_of_mem _ hm))

/-- C8: namespace freezing is idempotent: when every key of the scalar
namespace is identifier-shaped (as every symbol name is), freezing
already-frozen source against the same unchanged namespace changes
nothing, so recompiling yields byte-identical output; freezing is a pure
function of the code and the namespace, hence deterministic. -/
theorem freeze_idempotent (code : List Tok) (ns : List (String × NsVal))
    (h : ∀ kv ∈ ns, isIdentWord kv.1 = true) :
    freeze (freeze code ns) ns = freeze code ns := by
  apply freeze_of_no_keys
  intro k n hm
  exact freeze_removes_key ns code k n (h (k, NsVal.intVal n) hm) hm

/-- C8 witness: freezing the namespace a = 3 into a code text twice
gives the same output as freezing it once, and the single freeze
substitutes the literal 3 for the whole word a while leaving the longer
word ab alone. -/
theorem freeze_idempotent_witness :
    (∀ kv ∈ [("a", NsVal.intVal 3)], isIdentWord kv.1 = true) ∧
    freeze [Tok.word "a", Tok.sep " ", Tok.word "ab"]
        [("a", NsVal.intVal 3)]
      = [Tok.word "3", Tok.sep " ", Tok.word "ab"] ∧
    freeze (freeze [Tok.word "a", Tok.sep " ", Tok.word "ab"]
        [("a", NsVal.intVal 3)]) [("a", NsVal.intVal 3)]
      = freeze [Tok.word "a", Tok.sep " ", Tok.word "ab"]
          [("a", NsVal.intVal 3)] :=
  ⟨by decide, by decide,
   freeze_idempotent [Tok.word "a", Tok.sep " ", Tok.word "ab"]
     [("a", NsVal.intVal 3)] (by decide)⟩

end CppStandalone
